import Mathlib

/-!
Verification of the NetSpeedTray core: the time-series ingestion and
retention engine described in the project specification (sample buffering,
raw/minute/hour rollup aggregation, and the two-phase grace-period prune).

The implementation modules (`netspeedtray/core/widget_state.py` with
`WidgetState`/`DatabaseWorker`, and `netspeedtray/core/controller.py`)
are not part of the source tree available here — only their unit tests and
the package initializer are.  Every definition below is therefore modelled
from the specification text (sections 3, 4.1, 4.2, 4.3, 4.4, 4.5), with
table/column names taken from the schema the unit tests document.

Modelling conventions: timestamps are epoch seconds as `Nat`; rates are
exact rationals `ℚ` (the store keeps REAL columns; the aggregate math of
the spec — sum/count averages and maxima — is stated exactly); a table is
a list of rows; the `metadata` key-value table is a structure of optional
fields, `none` meaning the key is absent.
-/

namespace NetSpeedTray

/-- Row of the `speed_history_raw` table: one non-negligible sample.
Primary key `(timestamp, interface_name)`. -/
structure RawRow where
  timestamp : Nat
  interface_name : String
  upload_bytes_sec : ℚ
  download_bytes_sec : ℚ
  deriving DecidableEq, Repr

/-- Row shape shared by `speed_history_minute` and `speed_history_hour`:
averages and maxima over the covered bucket.  Primary key
`(timestamp, interface_name)`. -/
structure SumRow where
  timestamp : Nat
  interface_name : String
  upload_avg : ℚ
  download_avg : ℚ
  upload_max : ℚ
  download_max : ℚ
  deriving DecidableEq, Repr

/-- The `metadata` key-value table, restricted to the keys the spec names
(§3): a `none` field models the key being absent from the table. -/
structure Metadata where
  db_version : Option Nat
  current_retention_days : Option Nat
  pending_retention_days : Option Nat
  prune_scheduled_at : Option Nat
  deriving DecidableEq, Repr

/-- The persisted store: the three history tables plus metadata. -/
structure Store where
  raw : List RawRow
  minute : List SumRow
  hour : List SumRow
  md : Metadata
  deriving DecidableEq, Repr

/-- Key of a raw row, for primary-key conflict handling. -/
def RawRow.key (r : RawRow) : Nat × String := (r.timestamp, r.interface_name)

/-- Key of a minute/hour summary row. -/
def SumRow.key (r : SumRow) : Nat × String := (r.timestamp, r.interface_name)

/-- Seconds in 24 hours, the raw-to-minute age threshold (§4.4). -/
def rawAgeThreshold : Nat := 86400

/-- Seconds in 30 days, the minute-to-hour age threshold (§4.4). -/
def minuteAgeThreshold : Nat := 2592000

/-- Seconds in the 48-hour prune grace period (§4.5). -/
def gracePeriod : Nat := 172800

/-- Modelled from the spec: sentinel retention used when
`current_retention_days` is absent ("default: a large sentinel if absent,
e.g. unlimited", §4.5 step 1).  36500 days is 100 years. -/
def retentionSentinel : Nat := 36500

/-- Minute-aligned bucket of a timestamp: `floor(timestamp/60)*60` (§4.4). -/
def minuteBucket (t : Nat) : Nat := t / 60 * 60

/-- Hour-aligned bucket of a timestamp: `floor(timestamp/3600)*3600` (§4.4). -/
def hourBucket (t : Nat) : Nat := t / 3600 * 3600

/-- Exact average of a list of rationals (sum over count). -/
def avgQ (xs : List ℚ) : ℚ := xs.sum / (xs.length : ℚ)

/-- Maximum of a list of rationals (0 on the empty list; aggregation only
applies it to nonempty groups). -/
def maxQ : List ℚ → ℚ
  | [] => 0
  | x :: xs => xs.foldl max x

/-- Raw rows eligible for the raw-to-minute rollup: strictly older than
24 hours (`timestamp < now - 24h`, §4.4 step 1). -/
def rawQualifies (now : Nat) (r : RawRow) : Bool :=
  decide (r.timestamp < now - rawAgeThreshold)

/-- Minute rows eligible for the minute-to-hour rollup: strictly older
than 30 days (`timestamp < now - 30d`, §4.4 step 2). -/
def minuteQualifies (now : Nat) (r : SumRow) : Bool :=
  decide (r.timestamp < now - minuteAgeThreshold)

/-- Group of qualifying raw rows sharing a minute bucket and interface. -/
def rawGroup (rows : List RawRow) (k : Nat × String) : List RawRow :=
  rows.filter (fun r => minuteBucket r.timestamp == k.1 && r.interface_name == k.2)

/-- Group of qualifying minute rows sharing an hour bucket and interface. -/
def minuteGroup (rows : List SumRow) (k : Nat × String) : List SumRow :=
  rows.filter (fun r => hourBucket r.timestamp == k.1 && r.interface_name == k.2)

/-- Minute summary of one group: `avg(upload), avg(download), max(upload),
max(download)` over the group's raw rows (§4.4 step 1). -/
def mkMinuteRow (group : List RawRow) (k : Nat × String) : SumRow :=
  { timestamp := k.1
    interface_name := k.2
    upload_avg := avgQ (group.map RawRow.upload_bytes_sec)
    download_avg := avgQ (group.map RawRow.download_bytes_sec)
    upload_max := maxQ (group.map RawRow.upload_bytes_sec)
    download_max := maxQ (group.map RawRow.download_bytes_sec) }

/-- Hour summary of one group: `avg(upload_avg), avg(download_avg),
max(upload_max), max(download_max)` over the group's minute rows
(§4.4 step 2). -/
def mkHourRow (group : List SumRow) (k : Nat × String) : SumRow :=
  { timestamp := k.1
    interface_name := k.2
    upload_avg := avgQ (group.map SumRow.upload_avg)
    download_avg := avgQ (group.map SumRow.download_avg)
    upload_max := maxQ (group.map SumRow.upload_max)
    download_max := maxQ (group.map SumRow.download_max) }

/-- Minute-bucket group keys of a list of raw rows, without duplicates. -/
def rawGroupKeys (rows : List RawRow) : List (Nat × String) :=
  (rows.map (fun r => (minuteBucket r.timestamp, r.interface_name))).dedup

/-- Hour-bucket group keys of a list of minute rows, without duplicates. -/
def minuteGroupKeys (rows : List SumRow) : List (Nat × String) :=
  (rows.map (fun r => (hourBucket r.timestamp, r.interface_name))).dedup

/-- Modelled from the spec: phase 1 of the Aggregation Engine (§4.4,
`speed_history` code not in the source tree).  Selects raw rows older than
24h, groups them by `(floor(timestamp/60)*60, interface_name)`, upserts
one summary row per group into `speed_history_minute` (the upsert replaces
any existing row with the same primary key), and deletes the source raw
rows — all within one transaction, modelled as a single function. -/
def aggregateRawToMinute (now : Nat) (s : Store) : Store :=
  let old := s.raw.filter (rawQualifies now)
  let keys := rawGroupKeys old
  { s with
    raw := s.raw.filter (fun r => !rawQualifies now r)
    minute :=
      keys.map (fun k => mkMinuteRow (rawGroup old k) k)
        ++ s.minute.filter (fun m => !keys.contains m.key) }

/-- Modelled from the spec: phase 2 of the Aggregation Engine (§4.4).
Selects minute rows older than 30 days, groups them by
`(floor(timestamp/3600)*3600, interface_name)`, upserts one summary row
per group into `speed_history_hour`, and deletes the source minute rows. -/
def aggregateMinuteToHour (now : Nat) (s : Store) : Store :=
  let old := s.minute.filter (minuteQualifies now)
  let keys := minuteGroupKeys old
  { s with
    minute := s.minute.filter (fun r => !minuteQualifies now r)
    hour :=
      keys.map (fun k => mkHourRow (minuteGroup old k) k)
        ++ s.hour.filter (fun h => !keys.contains h.key) }

/-- The full Aggregation Engine: raw-to-minute, then minute-to-hour. -/
def runAggregation (now : Nat) (s : Store) : Store :=
  aggregateMinuteToHour now (aggregateRawToMinute now s)

/-- Modelled from the spec: the Retention Manager (§4.5), the second phase
of `run_maintenance` (code not in the source tree).  Given the configured
`keep_data_days` and the explicit `now`: with no shrink requested it at
most cancels a stale stage; with a shrink requested it stages a prune
48 hours out, waits, or — once `now` reaches `prune_scheduled_at` —
deletes every row older than `now - pending_retention_days*24h` from all
three history tables and commits the new retention. -/
def runRetention (keep_data_days : Nat) (now : Nat) (s : Store) : Store :=
  let current := s.md.current_retention_days.getD retentionSentinel
  if keep_data_days ≥ current then
    match s.md.pending_retention_days, s.md.prune_scheduled_at with
    | some _, some _ =>
        { s with md := { s.md with
            pending_retention_days := none, prune_scheduled_at := none } }
    | _, _ => s
  else
    match s.md.pending_retention_days, s.md.prune_scheduled_at with
    | some pending, some schedAt =>
        if now ≥ schedAt then
          let cutoff := now - pending * rawAgeThreshold
          { s with
            raw := s.raw.filter (fun r => !decide (r.timestamp < cutoff))
            minute := s.minute.filter (fun r => !decide (r.timestamp < cutoff))
            hour := s.hour.filter (fun r => !decide (r.timestamp < cutoff))
            md := { s.md with
              current_retention_days := some pending
              pending_retention_days := none
              prune_scheduled_at := none } }
        else s
    | _, _ =>
        { s with md := { s.md with
            pending_retention_days := some keep_data_days
            prune_scheduled_at := some (now + gracePeriod) } }

/-- Configuration options the core consumes (§6). -/
structure Config where
  keep_data_days : Nat
  negligible_speed_threshold : ℚ
  deriving Repr

/-- Modelled from the spec: the worker's `run_maintenance(config, now)`
task (§4.2): Aggregation Engine then Retention Manager, in that order,
with `now` an explicit parameter. -/
def runMaintenance (cfg : Config) (now : Nat) (s : Store) : Store :=
  runRetention cfg.keep_data_days now (runAggregation now s)

/-- One entry of the in-memory live window: a timestamp together with the
full per-interface speed map of that poll (§4.1). -/
structure Snapshot where
  timestamp : Nat
  speeds : List (String × ℚ × ℚ)
  deriving DecidableEq, Repr

/-- In-process state of the Sample Batch Buffer (§4.1): the rolling live
window `in_memory_history` and the pending-persist batch `db_batch` of
`(timestamp, interface_name, upload, download)` tuples. -/
structure WState where
  in_memory_history : List Snapshot
  db_batch : List (Nat × String × ℚ × ℚ)
  deriving DecidableEq, Repr

/-- Modelled from the spec: `add_sample`/`add_speed_data` of the Sample
Batch Buffer (§4.1, `widget_state.py` not in the source tree).  Appends a
live-window entry holding all interfaces (the window is a fixed-capacity
sequence of at most `maxLen` entries, oldest evicted on overflow), and
independently appends to the pending-persist batch only the entries whose
upload or download exceeds the negligibility threshold. -/
def addSpeedData (threshold : ℚ) (maxLen : Nat) (now : Nat)
    (speeds : List (String × ℚ × ℚ)) (st : WState) : WState :=
  let grown := st.in_memory_history ++ [⟨now, speeds⟩]
  let window :=
    if grown.length > maxLen then grown.drop (grown.length - maxLen) else grown
  let signif := speeds.filter (fun e => threshold < e.2.1 || threshold < e.2.2)
  { in_memory_history := window
    db_batch := st.db_batch ++ signif.map (fun e => (now, e.1, e.2.1, e.2.2)) }

/-- Primary-key upsert into `speed_history_raw`: a row whose
`(timestamp, interface_name)` key already exists is overwritten, not
duplicated (§4.2 `persist_speed`). -/
def upsertRaw (r : RawRow) (tbl : List RawRow) : List RawRow :=
  r :: tbl.filter (fun x => !(x.key == r.key))

/-- Modelled from the spec: the worker's `persist_speed(batch)` task
(§4.2, `widget_state.py` not in the source tree): inserts every tuple of
the batch as a raw row in one transaction, with key conflicts overwritten. -/
def persistSpeed (batch : List (Nat × String × ℚ × ℚ)) (s : Store) : Store :=
  { s with
    raw := batch.foldl (fun tbl b => upsertRaw ⟨b.1, b.2.1, b.2.2.1, b.2.2.2⟩ tbl) s.raw }

/-- Number of raw rows carrying a given primary key. -/
def rawKeyCount (tbl : List RawRow) (k : Nat × String) : Nat :=
  (tbl.filter (fun r => r.key == k)).length

/-! ### Schema Manager (§4.3) -/

/-- A column of the relational schema: name, declared type, and position
in the primary key (0 when the column is not part of the key). -/
structure ColumnDef where
  name : String
  ctype : String
  pk : Nat
  deriving DecidableEq, Repr

/-- A table of the relational schema. -/
structure TableDef where
  name : String
  columns : List ColumnDef
  deriving DecidableEq, Repr

/-- An index of the relational schema. -/
structure IndexDef where
  name : String
  table : String
  columns : List String
  deriving DecidableEq, Repr

/-- Schema-level view of the store file: which tables and indexes exist,
and the `db_version` metadata value (`none` when the key is absent). -/
structure SchemaState where
  tables : List TableDef
  indexes : List IndexDef
  dbVersion : Option Nat
  deriving DecidableEq, Repr

/-- Layout of the `metadata` key-value table (§3). -/
def metadataTable : TableDef :=
  ⟨"metadata", [⟨"key", "TEXT", 1⟩, ⟨"value", "TEXT", 0⟩]⟩

/-- Layout of `speed_history_raw` (§3): primary key
`(timestamp, interface_name)` plus the two rate columns. -/
def rawTable : TableDef :=
  ⟨"speed_history_raw",
    [⟨"timestamp", "INTEGER", 1⟩, ⟨"interface_name", "TEXT", 2⟩,
     ⟨"upload_bytes_sec", "REAL", 0⟩, ⟨"download_bytes_sec", "REAL", 0⟩]⟩

/-- Column layout shared by the minute and hour summary tables (§3). -/
def summaryColumns : List ColumnDef :=
  [⟨"timestamp", "INTEGER", 1⟩, ⟨"interface_name", "TEXT", 2⟩,
   ⟨"upload_avg", "REAL", 0⟩, ⟨"download_avg", "REAL", 0⟩,
   ⟨"upload_max", "REAL", 0⟩, ⟨"download_max", "REAL", 0⟩]

/-- Layout of `speed_history_minute` (§3). -/
def minuteTable : TableDef := ⟨"speed_history_minute", summaryColumns⟩

/-- Layout of `speed_history_hour` (§3). -/
def hourTable : TableDef := ⟨"speed_history_hour", summaryColumns⟩

/-- The four tables the Schema Manager creates (§4.3). -/
def requiredTables : List TableDef :=
  [metadataTable, rawTable, minuteTable, hourTable]

/-- The three indexes the Schema Manager creates (§4.3): `(timestamp)` on
raw and `(interface_name, timestamp)` on minute and hour. -/
def requiredIndexes : List IndexDef :=
  [⟨"idx_raw_timestamp", "speed_history_raw", ["timestamp"]⟩,
   ⟨"idx_minute_interface_timestamp", "speed_history_minute",
     ["interface_name", "timestamp"]⟩,
   ⟨"idx_hour_interface_timestamp", "speed_history_hour",
     ["interface_name", "timestamp"]⟩]

/-- True when a table of this name exists. -/
def hasTable (s : SchemaState) (n : String) : Bool :=
  s.tables.any (fun t => t.name == n)

/-- True when an index of this name exists. -/
def hasIndex (s : SchemaState) (n : String) : Bool :=
  s.indexes.any (fun i => i.name == n)

/-- Creates every required table and index that is absent (by name). -/
def createMissing (s : SchemaState) : SchemaState :=
  { s with
    tables := s.tables ++ requiredTables.filter (fun t => !hasTable s t.name)
    indexes := s.indexes ++ requiredIndexes.filter (fun i => !hasIndex s i.name) }

/-- Schema version the current code writes and expects (§3, §4.3). -/
def dbVersionCurrent : Nat := 2

/-- Modelled from the spec: the Schema Manager's
`_check_and_create_schema` (§4.3, code not in the source tree).  Creates
the four tables and three indexes if absent, writes `db_version = 2` if
not already present, and fails with `SchemaVersionMismatch` when a
different version is recorded. -/
def checkAndCreateSchema (s : SchemaState) : Except String SchemaState :=
  match s.dbVersion with
  | some v =>
      if v = dbVersionCurrent then .ok (createMissing s)
      else .error "SchemaVersionMismatch"
  | none => .ok { createMissing s with dbVersion := some dbVersionCurrent }

/-- A store file that does not exist yet: no tables, no indexes, no
version. -/
def freshSchema : SchemaState := ⟨[], [], none⟩

/-! ### Helper lemmas -/

theorem hasTable_createMissing (s : SchemaState) (t : TableDef)
    (ht : t ∈ requiredTables) : hasTable (createMissing s) t.name = true := by
  unfold hasTable createMissing
  simp only [List.any_append, Bool.or_eq_true]
  by_cases hb : hasTable s t.name
  · exact Or.inl hb
  · refine Or.inr ?_
    rw [List.any_eq_true]
    refine ⟨t, List.mem_filter.2 ⟨ht, ?_⟩, by simp⟩
    simp [hb]

theorem hasIndex_createMissing (s : SchemaState) (i : IndexDef)
    (hi : i ∈ requiredIndexes) : hasIndex (createMissing s) i.name = true := by
  unfold hasIndex createMissing
  simp only [List.any_append, Bool.or_eq_true]
  by_cases hb : hasIndex s i.name
  · exact Or.inl hb
  · refine Or.inr ?_
    rw [List.any_eq_true]
    refine ⟨i, List.mem_filter.2 ⟨hi, ?_⟩, by simp⟩
    simp [hb]

theorem createMissing_tables_eq (s u : SchemaState)
    (hts : u.tables = (createMissing s).tables)
    (his : u.indexes = (createMissing s).indexes) :
    createMissing u = u := by
  unfold createMissing
  have h1 : requiredTables.filter (fun t => !hasTable u t.name) = [] := by
    rw [List.filter_eq_nil_iff]
    intro t ht
    have : hasTable u t.name = true := by
      unfold hasTable; rw [hts]
      exact hasTable_createMissing s t ht
    simp [this]
  have h2 : requiredIndexes.filter (fun i => !hasIndex u i.name) = [] := by
    rw [List.filter_eq_nil_iff]
    intro i hi
    have : hasIndex u i.name = true := by
      unfold hasIndex; rw [his]
      exact hasIndex_createMissing s i hi
    simp [this]
  rw [h1, h2, List.append_nil, List.append_nil]

/-- The schema state produced by initializing a fresh store. -/
def initializedSchema : SchemaState :=
  ⟨requiredTables, requiredIndexes, some dbVersionCurrent⟩

theorem checkAndCreateSchema_ok_shape (s u : SchemaState)
    (h : checkAndCreateSchema s = .ok u) :
    u.dbVersion = some dbVersionCurrent
    ∧ u.tables = (createMissing s).tables
    ∧ u.indexes = (createMissing s).indexes := by
  unfold checkAndCreateSchema at h
  split at h
  · split at h
    · rename_i v heq hv
      cases h
      refine ⟨?_, rfl, rfl⟩
      show s.dbVersion = some dbVersionCurrent
      rw [heq, hv]
    · exact absurd h (by simp)
  · cases h
    exact ⟨rfl, rfl, rfl⟩

theorem checkAndCreateSchema_idem (s u : SchemaState)
    (h : checkAndCreateSchema s = .ok u) :
    checkAndCreateSchema u = .ok u := by
  obtain ⟨h1, h2, h3⟩ := checkAndCreateSchema_ok_shape s u h
  unfold checkAndCreateSchema
  rw [h1]
  dsimp only
  rw [if_pos rfl, createMissing_tables_eq s u h2 h3]

/-- C9: schema initialization on a fresh store creates exactly the four
tables of the data model with their column layouts, the timestamp index
on raw and the `(interface_name, timestamp)` indexes on minute and hour,
and writes `db_version = 2`; running it again on any successfully
initialized store changes nothing. -/
theorem schema_initialization_correct_and_idempotent :
    checkAndCreateSchema freshSchema = .ok initializedSchema
    ∧ initializedSchema.tables = [metadataTable, rawTable, minuteTable, hourTable]
    ∧ initializedSchema.indexes = requiredIndexes
    ∧ initializedSchema.dbVersion = some 2
    ∧ ∀ s u, checkAndCreateSchema s = .ok u → checkAndCreateSchema u = .ok u := by
  refine ⟨rfl, rfl, rfl, rfl, ?_⟩
  exact checkAndCreateSchema_idem

/-- C9 witness: initializing a fresh store yields the initialized schema,
and re-running initialization on it is a no-op. -/
theorem schema_initialization_witness :
    checkAndCreateSchema freshSchema = .ok initializedSchema
    ∧ checkAndCreateSchema initializedSchema = .ok initializedSchema :=
  ⟨schema_initialization_correct_and_idempotent.1,
   schema_initialization_correct_and_idempotent.2.2.2.2 freshSchema initializedSchema
     schema_initialization_correct_and_idempotent.1⟩

/-- C6: every sample map entry is appended to the in-memory live window;
an entry with both rates below the negligibility threshold is never added
to the pending-persist batch, while an entry with upload or download above
the threshold is added to the batch as a matching
`(timestamp, interface_name, upload, download)` tuple. -/
theorem add_speed_data_threshold (threshold : ℚ) (maxLen now : Nat)
    (speeds : List (String × ℚ × ℚ)) (st : WState) (hcap : 1 ≤ maxLen) :
    (addSpeedData threshold maxLen now speeds st).in_memory_history.getLast?
      = some ⟨now, speeds⟩
    ∧ ∀ name up down, (name, up, down) ∈ speeds →
        ((up < threshold ∧ down < threshold →
            (now, name, up, down) ∈ (addSpeedData threshold maxLen now speeds st).db_batch →
            (now, name, up, down) ∈ st.db_batch)
         ∧ ((threshold < up ∨ threshold < down) →
            (now, name, up, down) ∈ (addSpeedData threshold maxLen now speeds st).db_batch)) := by
  constructor
  · unfold addSpeedData
    dsimp only
    split
    · rename_i hlong
      have hle : (st.in_memory_history ++ [Snapshot.mk now speeds]).length - maxLen
          ≤ st.in_memory_history.length := by
        simp only [List.length_append, List.length_singleton]
        omega
      rw [List.drop_append_of_le_length hle, List.getLast?_concat]
    · rw [List.getLast?_concat]
  · intro name up down hmem
    constructor
    · rintro ⟨hup, hdown⟩ hb
      rcases List.mem_append.1 hb with hold | hnew
      · exact hold
      · exfalso
        obtain ⟨e, hef, heq⟩ := List.mem_map.1 hnew
        obtain ⟨-, hpass⟩ := List.mem_filter.1 hef
        simp only [Prod.mk.injEq] at heq
        obtain ⟨-, -, h2, h3⟩ := heq
        rw [h2, h3] at hpass
        simp only [Bool.or_eq_true, decide_eq_true_eq] at hpass
        rcases hpass with h | h
        · exact absurd h (lt_asymm hup)
        · exact absurd h (lt_asymm hdown)
    · intro hsig
      refine List.mem_append.2 (Or.inr (List.mem_map.2 ⟨(name, up, down), ?_, rfl⟩))
      refine List.mem_filter.2 ⟨hmem, ?_⟩
      rcases hsig with h | h <;> simp [h]

/-- Sample data of the ingestion unit test: two significant interfaces,
one negligible and one idle (rates in bytes/sec). -/
def exSpeeds : List (String × ℚ × ℚ) :=
  [("Wi-Fi", 1250000, 2500000), ("Ethernet", 1000, 2000),
   ("vEthernet (WSL)", 5, 8), ("Bluetooth PAN", 0, 0)]

/-- C6 witness: with threshold 10 bytes/sec, the full sample map lands in
the live window, the Wi-Fi tuple lands in the batch, and the negligible
vEthernet entry never does. -/
theorem add_speed_data_threshold_witness :
    (1:Nat) ≤ 600
    ∧ (addSpeedData 10 600 1000 exSpeeds ⟨[], []⟩).in_memory_history.getLast?
        = some ⟨1000, exSpeeds⟩
    ∧ (1000, "Wi-Fi", (1250000:ℚ), (2500000:ℚ))
        ∈ (addSpeedData 10 600 1000 exSpeeds ⟨[], []⟩).db_batch
    ∧ ((1000, "vEthernet (WSL)", (5:ℚ), (8:ℚ))
          ∈ (addSpeedData 10 600 1000 exSpeeds ⟨[], []⟩).db_batch
        → (1000, "vEthernet (WSL)", (5:ℚ), (8:ℚ))
          ∈ (WState.mk [] []).db_batch) := by
  have h := add_speed_data_threshold 10 600 1000 exSpeeds ⟨[], []⟩ (by decide)
  refine ⟨by decide, h.1, ?_, ?_⟩
  · exact (h.2 "Wi-Fi" 1250000 2500000 (by decide)).2 (Or.inl (by decide))
  · exact fun hb =>
      (h.2 "vEthernet (WSL)" 5 8 (by decide)).1 ⟨by decide, by decide⟩ hb

/-- Raw row built from one batch tuple. -/
def mkRawRow (t : Nat × String × ℚ × ℚ) : RawRow := ⟨t.1, t.2.1, t.2.2.1, t.2.2.2⟩

/-- Primary keys carried by a batch, in batch order. -/
def batchKeys (b : List (Nat × String × ℚ × ℚ)) : List (Nat × String) :=
  b.map (fun t => (t.1, t.2.1))

theorem filter_key_upsertRaw (r : RawRow) (tbl : List RawRow) (k : Nat × String)
    (h : ¬k = r.key) :
    (upsertRaw r tbl).filter (fun x => x.key == k)
      = tbl.filter (fun x => x.key == k) := by
  unfold upsertRaw
  rw [List.filter_cons_of_neg (by simp [Ne.symm h])]
  rw [List.filter_filter]
  refine List.filter_congr ?_
  intro x _
  by_cases hx : x.key = k
  · simp only [hx]
    simp [h]
  · simp [hx]

theorem rawKeyCount_upsertRaw (r : RawRow) (tbl : List RawRow) (k : Nat × String) :
    rawKeyCount (upsertRaw r tbl) k = if k = r.key then 1 else rawKeyCount tbl k := by
  by_cases hk : k = r.key
  · subst hk
    rw [if_pos rfl]
    unfold rawKeyCount upsertRaw
    rw [List.filter_cons_of_pos (by simp)]
    rw [List.length_cons]
    have h : (tbl.filter fun x => !(x.key == r.key)).filter (fun x => x.key == r.key)
        = [] := by
      rw [List.filter_eq_nil_iff]
      intro x hx
      have hq := (List.mem_filter.1 hx).2
      simpa using hq
    rw [h]
    rfl
  · rw [if_neg hk]
    unfold rawKeyCount
    rw [filter_key_upsertRaw r tbl k hk]

theorem rawKeyCount_persist_foldl (b : List (Nat × String × ℚ × ℚ))
    (tbl : List RawRow) (k : Nat × String) :
    rawKeyCount (b.foldl (fun acc t => upsertRaw (mkRawRow t) acc) tbl) k
      = if k ∈ batchKeys b then 1 else rawKeyCount tbl k := by
  induction b generalizing tbl with
  | nil => simp [batchKeys]
  | cons t rest ih =>
      rw [List.foldl_cons, ih]
      by_cases hmem : k ∈ batchKeys rest
      · rw [if_pos hmem, if_pos]
        simp [batchKeys] at hmem ⊢
        exact Or.inr hmem
      · rw [if_neg hmem, rawKeyCount_upsertRaw]
        by_cases hk : k = (mkRawRow t).key
        · rw [if_pos hk, if_pos]
          simp [batchKeys, mkRawRow, RawRow.key] at hk ⊢
          exact Or.inl hk
        · rw [if_neg hk, if_neg]
          simp [batchKeys, mkRawRow, RawRow.key] at hk hmem ⊢
          exact ⟨hk, hmem⟩

theorem filter_key_persist_foldl (b : List (Nat × String × ℚ × ℚ))
    (tbl : List RawRow) (k : Nat × String) (hk : k ∉ batchKeys b) :
    (b.foldl (fun acc t => upsertRaw (mkRawRow t) acc) tbl).filter
        (fun x => x.key == k)
      = tbl.filter (fun x => x.key == k) := by
  induction b generalizing tbl with
  | nil => rfl
  | cons t rest ih =>
      simp only [batchKeys, List.map_cons, List.mem_cons, not_or] at hk
      rw [List.foldl_cons, ih (upsertRaw (mkRawRow t) tbl) hk.2]
      exact filter_key_upsertRaw (mkRawRow t) tbl k hk.1

theorem mem_persist_foldl_of_no_later (b : List (Nat × String × ℚ × ℚ))
    (tbl : List RawRow) (row : RawRow) (hrow : row ∈ tbl)
    (hno : ∀ u ∈ b, ¬(mkRawRow u).key = row.key) :
    row ∈ b.foldl (fun acc t => upsertRaw (mkRawRow t) acc) tbl := by
  induction b generalizing tbl with
  | nil => exact hrow
  | cons u rest ih =>
      rw [List.foldl_cons]
      refine ih (upsertRaw (mkRawRow u) tbl) ?_ (fun v hv => hno v (List.mem_cons_of_mem u hv))
      unfold upsertRaw
      refine List.mem_cons_of_mem _ (List.mem_filter.2 ⟨hrow, ?_⟩)
      have h1 := hno u (List.mem_cons_self u rest)
      have h2 : ¬row.key = (mkRawRow u).key := fun hh => h1 hh.symm
      simp [h2]

/-- C7: `persist_speed` is idempotent per primary key: every batch key ends
up with exactly one raw row; keys not in the batch keep their rows
untouched; the last batch tuple carrying a key is present as a row with
matching values; and key-uniqueness of the store is preserved. -/
theorem persist_speed_idempotent_per_key (b : List (Nat × String × ℚ × ℚ))
    (s : Store) :
    (∀ k ∈ batchKeys b, rawKeyCount (persistSpeed b s).raw k = 1)
    ∧ (∀ k, k ∉ batchKeys b →
        (persistSpeed b s).raw.filter (fun r => r.key == k)
          = s.raw.filter (fun r => r.key == k))
    ∧ (∀ b₁ t b₂, b = b₁ ++ t :: b₂ →
        (∀ u ∈ b₂, ¬(u.1, u.2.1) = (t.1, t.2.1)) →
        mkRawRow t ∈ (persistSpeed b s).raw)
    ∧ ((∀ k, rawKeyCount s.raw k ≤ 1) →
        ∀ k, rawKeyCount (persistSpeed b s).raw k ≤ 1) := by
  refine ⟨?_, ?_, ?_, ?_⟩
  · intro k hk
    show rawKeyCount (b.foldl (fun acc t => upsertRaw (mkRawRow t) acc) s.raw) k = 1
    rw [rawKeyCount_persist_foldl, if_pos hk]
  · intro k hk
    exact filter_key_persist_foldl b s.raw k hk
  · intro b₁ t b₂ hb hno
    show mkRawRow t ∈ (b.foldl (fun acc t => upsertRaw (mkRawRow t) acc) s.raw)
    subst hb
    rw [List.foldl_append, List.foldl_cons]
    refine mem_persist_foldl_of_no_later b₂ _ (mkRawRow t) ?_ ?_
    · exact List.mem_cons_self _ _
    · intro u hu
      exact hno u hu
  · intro huniq k
    show rawKeyCount (b.foldl (fun acc t => upsertRaw (mkRawRow t) acc) s.raw) k ≤ 1
    rw [rawKeyCount_persist_foldl]
    split
    · exact le_refl 1
    · exact huniq k

/-- Concrete batch with a duplicated primary key, as in the flush test. -/
def exBatch : List (Nat × String × ℚ × ℚ) :=
  [(100, "Wi-Fi", 1, 2), (100, "Wi-Fi", 3, 4), (200, "Ethernet", 5, 6)]

/-- The empty store. -/
def emptyStore : Store := ⟨[], [], [], ⟨some 2, none, none, none⟩⟩

/-- C7 witness: persisting a batch with a duplicated `(100, "Wi-Fi")` key
into the empty store leaves exactly one row for that key, carrying the
later tuple's values, and the store stays unique per key. -/
theorem persist_speed_idempotent_witness :
    (100, "Wi-Fi") ∈ batchKeys exBatch
    ∧ rawKeyCount (persistSpeed exBatch emptyStore).raw (100, "Wi-Fi") = 1
    ∧ mkRawRow (100, "Wi-Fi", 3, 4) ∈ (persistSpeed exBatch emptyStore).raw
    ∧ (∀ k, rawKeyCount (persistSpeed exBatch emptyStore).raw k ≤ 1) := by
  have h := persist_speed_idempotent_per_key exBatch emptyStore
  refine ⟨by decide, h.1 (100, "Wi-Fi") (by decide), ?_, ?_⟩
  · exact h.2.2.1 [(100, "Wi-Fi", 1, 2)] (100, "Wi-Fi", 3, 4) [(200, "Ethernet", 5, 6)]
      (by decide) (by decide)
  · exact h.2.2.2 (fun k => Nat.zero_le 1)

/-- Number of minute/hour rows carrying a given primary key. -/
def sumKeyCount (tbl : List SumRow) (k : Nat × String) : Nat :=
  (tbl.filter (fun r => r.key == k)).length

theorem count_mkRows_eq_count (f : (Nat × String) → SumRow)
    (hf : ∀ k, (f k).key = k) (keys : List (Nat × String)) (k : Nat × String) :
    ((keys.map f).filter (fun m => m.key == k)).length
      = (keys.filter (fun a => a == k)).length := by
  rw [List.filter_map, List.length_map]
  congr 1
  refine List.filter_congr ?_
  intro a _
  simp [hf]

theorem length_filter_beq_of_nodup (l : List (Nat × String)) (k : Nat × String)
    (hn : l.Nodup) (hk : k ∈ l) : (l.filter (fun a => a == k)).length = 1 := by
  induction l with
  | nil => cases hk
  | cons a rest ih =>
      rw [List.filter_cons]
      rcases List.mem_cons.1 hk with h | h
      · subst h
        rw [if_pos (by simp)]
        rw [List.length_cons]
        have ha : k ∉ rest := (List.nodup_cons.1 hn).1
        have hr : rest.filter (fun x => x == k) = [] := by
          rw [List.filter_eq_nil_iff]
          intro x hx hbe
          rw [beq_iff_eq] at hbe
          exact ha (hbe ▸ hx)
        rw [hr]
        rfl
      · have hne : (a == k) = false := by
          rw [beq_eq_false_iff_ne]
          intro he
          exact (List.nodup_cons.1 hn).1 (he ▸ h)
        rw [if_neg (by simp [hne])]
        exact ih (List.nodup_cons.1 hn).2 h

theorem filter_key_skipped_groups (tbl : List SumRow)
    (keys : List (Nat × String)) (k : Nat × String) (hk : k ∈ keys) :
    (tbl.filter (fun m => !keys.contains m.key)).filter (fun m => m.key == k)
      = [] := by
  rw [List.filter_eq_nil_iff]
  intro m hm
  have hnc := (List.mem_filter.1 hm).2
  simp only [Bool.not_eq_true] at hnc
  intro hkey
  rw [beq_iff_eq] at hkey
  have hc : keys.contains m.key = true := by
    rw [hkey]
    simpa using hk
  rw [hc] at hnc
  simp at hnc

theorem nodup_rawGroupKeys (rows : List RawRow) : (rawGroupKeys rows).Nodup :=
  List.nodup_dedup _

theorem nodup_minuteGroupKeys (rows : List SumRow) : (minuteGroupKeys rows).Nodup :=
  List.nodup_dedup _

/-- One raw row of the aggregation unit test that is too recent to
aggregate. -/
def exRecentRow : RawRow := ⟨996400, "Wi-Fi", 1000, 2000⟩

/-- Store of the raw-to-minute aggregation unit test: two old raw rows in
one minute bucket plus one recent raw row, at `now = 1000000`. -/
def exStoreC3 : Store :=
  { raw := [⟨900001, "Wi-Fi", 100, 200⟩, ⟨900002, "Wi-Fi", 300, 400⟩, exRecentRow],
    minute := [], hour := [], md := ⟨some 2, none, none, none⟩ }

/-- C3: the raw-to-minute phase takes exactly the raw rows older than 24h
(the rest stay), writes one minute row per `(minute bucket, interface)`
group holding the group's averages and maxima, and deletes the source
rows; on the spec's example the two Wi-Fi rows `(100,200)` and `(300,400)`
collapse to one minute row `(200, 300, 300, 400)`. -/
theorem aggregation_raw_to_minute_correct (now : Nat) (s : Store) :
    (aggregateRawToMinute now s).raw = s.raw.filter (fun r => !rawQualifies now r)
    ∧ (∀ k ∈ rawGroupKeys (s.raw.filter (rawQualifies now)),
        sumKeyCount (aggregateRawToMinute now s).minute k = 1
        ∧ mkMinuteRow (rawGroup (s.raw.filter (rawQualifies now)) k) k
            ∈ (aggregateRawToMinute now s).minute)
    ∧ (aggregateRawToMinute 1000000 exStoreC3).minute
        = [⟨900000, "Wi-Fi", 200, 300, 300, 400⟩]
    ∧ (aggregateRawToMinute 1000000 exStoreC3).raw = [exRecentRow] := by
  refine ⟨rfl, ?_, ?_, by decide⟩
  · intro k hk
    constructor
    · show (List.filter _ (_ ++ _)).length = 1
      rw [List.filter_append, List.length_append]
      rw [count_mkRows_eq_count
        (fun j => mkMinuteRow (rawGroup (s.raw.filter (rawQualifies now)) j) j)
        (fun j => rfl)]
      rw [filter_key_skipped_groups _ _ _ hk]
      rw [length_filter_beq_of_nodup _ _ (nodup_rawGroupKeys _) hk]
      rfl
    · exact List.mem_append_left _ (List.mem_map.2 ⟨k, hk, rfl⟩)
  · have hkeys : rawGroupKeys (exStoreC3.raw.filter (rawQualifies 1000000))
        = [(900000, "Wi-Fi")] := by decide
    have hgroup : rawGroup (exStoreC3.raw.filter (rawQualifies 1000000)) (900000, "Wi-Fi")
        = [⟨900001, "Wi-Fi", 100, 200⟩, ⟨900002, "Wi-Fi", 300, 400⟩] := by decide
    unfold aggregateRawToMinute
    dsimp only
    rw [hkeys]
    simp only [List.map_cons, List.map_nil]
    rw [hgroup]
    have hm : exStoreC3.minute = [] := rfl
    rw [hm]
    simp only [List.filter_nil, List.append_nil, List.cons.injEq, and_true]
    norm_num [mkMinuteRow, avgQ, maxQ, SumRow.mk.injEq, max_def]

/-- C3 witness: in the unit-test store the Wi-Fi bucket key is a group
key, its minute summary is present exactly once after aggregation. -/
theorem aggregation_raw_to_minute_witness :
    (900000, "Wi-Fi") ∈ rawGroupKeys (exStoreC3.raw.filter (rawQualifies 1000000))
    ∧ (sumKeyCount (aggregateRawToMinute 1000000 exStoreC3).minute (900000, "Wi-Fi") = 1
       ∧ mkMinuteRow (rawGroup (exStoreC3.raw.filter (rawQualifies 1000000)) (900000, "Wi-Fi"))
           (900000, "Wi-Fi") ∈ (aggregateRawToMinute 1000000 exStoreC3).minute) :=
  ⟨by decide,
   (aggregation_raw_to_minute_correct 1000000 exStoreC3).2.1 (900000, "Wi-Fi") (by decide)⟩

/-- One minute row of the aggregation unit test that is too recent to
aggregate. -/
def exRecentMinuteRow : SumRow := ⟨2500000, "Wi-Fi", 1000, 2000, 1500, 2500⟩

/-- Store of the minute-to-hour aggregation unit test: two old minute rows
in one hour bucket plus one recent minute row, at `now = 3000000`. -/
def exStoreC4 : Store :=
  { raw := [],
    minute := [⟨100860, "Wi-Fi", 100, 200, 150, 250⟩,
               ⟨100920, "Wi-Fi", 300, 400, 350, 450⟩, exRecentMinuteRow],
    hour := [], md := ⟨some 2, none, none, none⟩ }

/-- C4: the minute-to-hour phase takes exactly the minute rows older than
30 days (the rest stay), writes one hour row per
`(hour bucket, interface)` group holding avg-of-avg and max-of-max, and
deletes the source rows; on the unit test's example the two Wi-Fi minute
rows collapse to one hour row `(200, 300, 350, 450)`. -/
theorem aggregation_minute_to_hour_correct (now : Nat) (s : Store) :
    (aggregateMinuteToHour now s).minute
      = s.minute.filter (fun r => !minuteQualifies now r)
    ∧ (∀ k ∈ minuteGroupKeys (s.minute.filter (minuteQualifies now)),
        sumKeyCount (aggregateMinuteToHour now s).hour k = 1
        ∧ mkHourRow (minuteGroup (s.minute.filter (minuteQualifies now)) k) k
            ∈ (aggregateMinuteToHour now s).hour)
    ∧ (aggregateMinuteToHour 3000000 exStoreC4).hour
        = [⟨100800, "Wi-Fi", 200, 300, 350, 450⟩]
    ∧ (aggregateMinuteToHour 3000000 exStoreC4).minute = [exRecentMinuteRow] := by
  refine ⟨rfl, ?_, ?_, by decide⟩
  · intro k hk
    constructor
    · show (List.filter _ (_ ++ _)).length = 1
      rw [List.filter_append, List.length_append]
      rw [count_mkRows_eq_count
        (fun j => mkHourRow (minuteGroup (s.minute.filter (minuteQualifies now)) j) j)
        (fun j => rfl)]
      rw [filter_key_skipped_groups _ _ _ hk]
      rw [length_filter_beq_of_nodup _ _ (nodup_minuteGroupKeys _) hk]
      rfl
    · exact List.mem_append_left _ (List.mem_map.2 ⟨k, hk, rfl⟩)
  · have hkeys : minuteGroupKeys (exStoreC4.minute.filter (minuteQualifies 3000000))
        = [(100800, "Wi-Fi")] := by decide
    have hgroup : minuteGroup (exStoreC4.minute.filter (minuteQualifies 3000000))
        (100800, "Wi-Fi")
        = [⟨100860, "Wi-Fi", 100, 200, 150, 250⟩,
           ⟨100920, "Wi-Fi", 300, 400, 350, 450⟩] := by decide
    unfold aggregateMinuteToHour
    dsimp only
    rw [hkeys]
    simp only [List.map_cons, List.map_nil]
    rw [hgroup]
    have hh : exStoreC4.hour = [] := rfl
    rw [hh]
    simp only [List.filter_nil, List.append_nil, List.cons.injEq, and_true]
    norm_num [mkHourRow, avgQ, maxQ, SumRow.mk.injEq, max_def]

/-- C4 witness: in the unit-test store the Wi-Fi hour-bucket key is a
group key and its hour summary is present exactly once after
aggregation. -/
theorem aggregation_minute_to_hour_witness :
    (100800, "Wi-Fi") ∈ minuteGroupKeys (exStoreC4.minute.filter (minuteQualifies 3000000))
    ∧ (sumKeyCount (aggregateMinuteToHour 3000000 exStoreC4).hour (100800, "Wi-Fi") = 1
       ∧ mkHourRow (minuteGroup (exStoreC4.minute.filter (minuteQualifies 3000000))
           (100800, "Wi-Fi")) (100800, "Wi-Fi")
           ∈ (aggregateMinuteToHour 3000000 exStoreC4).hour) :=
  ⟨by decide,
   (aggregation_minute_to_hour_correct 3000000 exStoreC4).2.1 (100800, "Wi-Fi") (by decide)⟩

/-- Store with a due prune staged (scheduled in the past) while the
configured retention (400 days) is back above the current one (365): the
spec cancels the stage instead of executing the prune. -/
def cexStoreC1 : Store :=
  { raw := [], minute := [],
    hour := [⟨996544000, "Wi-Fi", 0, 0, 0, 0⟩],
    md := ⟨some 2, some 365, some 30, some 999999999⟩ }

/-- C1 counterexample: a maintenance run with a prune scheduled and
`now ≥ prune_scheduled_at` but `keep_data_days ≥ current_retention_days`
cancels the stage — the hour row older than the claimed cutoff survives
and `current_retention_days` is not set to the pending value. -/
theorem retention_prune_executes_cex :
    cexStoreC1.md.pending_retention_days = some 30
    ∧ cexStoreC1.md.prune_scheduled_at = some 999999999
    ∧ 999999999 ≤ 1000000000
    ∧ 996544000 < 1000000000 - 30 * rawAgeThreshold
    ∧ (runMaintenance ⟨400, 1⟩ 1000000000 cexStoreC1).hour
        = [⟨996544000, "Wi-Fi", 0, 0, 0, 0⟩]
    ∧ (runMaintenance ⟨400, 1⟩ 1000000000 cexStoreC1).md.current_retention_days
        = some 365 := by
  refine ⟨rfl, rfl, by decide, by decide, by decide, by decide⟩

/-- C1 (amended): when additionally `keep_data_days < current_retention_days`,
a due prune executes in the retention phase: every row with
`timestamp < now - pending_retention_days*24h` is deleted from all three
history tables (rows at or after the cutoff remain), the new retention is
committed and both staging keys are removed. -/
theorem retention_prune_executes (s : Store) (keep now p schedT : Nat)
    (hshrink : keep < s.md.current_retention_days.getD retentionSentinel)
    (hp : s.md.pending_retention_days = some p)
    (hT : s.md.prune_scheduled_at = some schedT)
    (hdue : schedT ≤ now) :
    runRetention keep now s = { s with
      raw := s.raw.filter
        (fun r => !decide (r.timestamp < now - p * rawAgeThreshold))
      minute := s.minute.filter
        (fun r => !decide (r.timestamp < now - p * rawAgeThreshold))
      hour := s.hour.filter
        (fun r => !decide (r.timestamp < now - p * rawAgeThreshold))
      md := { s.md with
        current_retention_days := some p
        pending_retention_days := none
        prune_scheduled_at := none } } := by
  unfold runRetention
  rw [if_neg (not_le.2 hshrink), hp, hT]
  dsimp only
  rw [if_pos hdue]

/-- Store with a due prune staged and the configured retention still below
the current one: the prune executes. -/
def exStoreC1 : Store :=
  { raw := [], minute := [],
    hour := [⟨996544000, "Wi-Fi", 0, 0, 0, 0⟩, ⟨999136000, "Wi-Fi", 0, 0, 0, 0⟩],
    md := ⟨some 2, some 365, some 30, some 999999999⟩ }

/-- C1 witness: with `keep_data_days = 30 < 365`, pending 30 days and the
grace deadline passed, the retention phase prunes the 40-day-old hour row,
keeps the 10-day-old one, commits retention 30 and clears the staging
keys. -/
theorem retention_prune_executes_witness :
    30 < exStoreC1.md.current_retention_days.getD retentionSentinel
    ∧ exStoreC1.md.pending_retention_days = some 30
    ∧ exStoreC1.md.prune_scheduled_at = some 999999999
    ∧ 999999999 ≤ 1000000000
    ∧ runRetention 30 1000000000 exStoreC1 = { exStoreC1 with
        raw := exStoreC1.raw.filter
          (fun r => !decide (r.timestamp < 1000000000 - 30 * rawAgeThreshold))
        minute := exStoreC1.minute.filter
          (fun r => !decide (r.timestamp < 1000000000 - 30 * rawAgeThreshold))
        hour := exStoreC1.hour.filter
          (fun r => !decide (r.timestamp < 1000000000 - 30 * rawAgeThreshold))
        md := { exStoreC1.md with
          current_retention_days := some 30
          pending_retention_days := none
          prune_scheduled_at := none } } :=
  ⟨by decide, rfl, rfl, by decide,
   retention_prune_executes exStoreC1 30 1000000000 30 999999999
     (by decide) rfl rfl (by decide)⟩

/-- Store with one raw row just over 24 hours old and a long configured
retention, used to show that a maintenance run deletes rows (by rollup)
even while a shrink is merely being staged. -/
def cexStoreC2 : Store :=
  { raw := [⟨900000, "Wi-Fi", 100, 200⟩], minute := [], hour := [],
    md := ⟨some 2, some 365, none, none⟩ }

/-- C2 counterexample: a maintenance run with
`keep_data_days = 30 < current_retention_days = 365` and no prune
scheduled does stage the prune, but it also deletes the 25-hour-old raw
row (the aggregation phase rolls it up), so the run does not leave every
table's rows intact as the claim states. -/
theorem retention_shrink_stages_cex :
    cexStoreC2.md.current_retention_days.getD retentionSentinel = 365
    ∧ cexStoreC2.md.prune_scheduled_at = none
    ∧ cexStoreC2.raw = [⟨900000, "Wi-Fi", 100, 200⟩]
    ∧ (runMaintenance ⟨30, 1⟩ 1000000 cexStoreC2).raw = []
    ∧ (runMaintenance ⟨30, 1⟩ 1000000 cexStoreC2).md.pending_retention_days
        = some 30 := by
  refine ⟨by decide, rfl, rfl, by decide, by decide⟩

/-- C2 (amended): the retention phase never deletes rows before the grace
period elapses — with a shrink requested and no prune scheduled it only
stages `pending_retention_days = keep_data_days` and
`prune_scheduled_at = now + 48h`, touching no history table; and whenever
a prune is scheduled with `now < prune_scheduled_at`, the retention phase
deletes no rows (row deletions during such a maintenance run come only
from the aggregation rollup). -/
theorem retention_shrink_grace_period (s : Store) (keep now : Nat) :
    (keep < s.md.current_retention_days.getD retentionSentinel →
      s.md.pending_retention_days = none ∨ s.md.prune_scheduled_at = none →
      runRetention keep now s = { s with md := { s.md with
        pending_retention_days := some keep
        prune_scheduled_at := some (now + gracePeriod) } })
    ∧ (∀ p schedT, s.md.pending_retention_days = some p →
        s.md.prune_scheduled_at = some schedT → now < schedT →
        (runRetention keep now s).raw = s.raw
        ∧ (runRetention keep now s).minute = s.minute
        ∧ (runRetention keep now s).hour = s.hour) := by
  constructor
  · intro hshrink hnone
    unfold runRetention
    rw [if_neg (not_le.2 hshrink)]
    rcases hnone with hpd | hsc
    · rcases hsc2 : s.md.prune_scheduled_at with _ | t <;> rw [hpd]
    · rcases hpd2 : s.md.pending_retention_days with _ | q <;> rw [hsc]
  · intro p schedT hp hT hlt
    unfold runRetention
    by_cases hk : s.md.current_retention_days.getD retentionSentinel ≤ keep
    · rw [if_pos hk, hp, hT]
      exact ⟨rfl, rfl, rfl⟩
    · rw [if_neg hk, hp, hT]
      dsimp only
      rw [if_neg (by omega)]
      exact ⟨rfl, rfl, rfl⟩

/-- Store with a long retention and nothing staged, for the staging
witness. -/
def exStoreC2 : Store :=
  { raw := [], minute := [],
    hour := [⟨100, "Wi-Fi", 0, 0, 0, 0⟩],
    md := ⟨some 2, some 365, none, none⟩ }

/-- Store with a prune scheduled in the future, for the waiting witness. -/
def exStoreC2w : Store :=
  { raw := [⟨100, "Wi-Fi", 1, 2⟩], minute := [], hour := [],
    md := ⟨some 2, some 365, some 30, some 5000⟩ }

/-- C2 witness: a shrink request on a clean store stages the prune 48h out
and leaves the tables alone, and a waiting store keeps all rows. -/
theorem retention_shrink_grace_period_witness :
    30 < exStoreC2.md.current_retention_days.getD retentionSentinel
    ∧ runRetention 30 1000 exStoreC2 = { exStoreC2 with md := { exStoreC2.md with
        pending_retention_days := some 30
        prune_scheduled_at := some (1000 + gracePeriod) } }
    ∧ 1000 < 5000
    ∧ (runRetention 30 1000 exStoreC2w).raw = exStoreC2w.raw :=
  ⟨by decide,
   (retention_shrink_grace_period exStoreC2 30 1000).1 (by decide) (Or.inl rfl),
   by decide,
   ((retention_shrink_grace_period exStoreC2w 30 1000).2 30 5000 rfl rfl
     (by decide)).1⟩

/-- Store with one raw row just over 24 hours old and the configured
retention equal to the current one, used to show that such a maintenance
run still deletes rows through the aggregation rollup. -/
def cexStoreC8 : Store :=
  { raw := [⟨900000, "Wi-Fi", 100, 200⟩], minute := [], hour := [],
    md := ⟨some 2, some 365, none, none⟩ }

/-- C8 counterexample: a maintenance run with
`keep_data_days = 365 ≥ current_retention_days = 365` and nothing staged
nevertheless deletes the 25-hour-old raw row (the aggregation phase rolls
it up), so the run is not the claimed no-op on the history tables. -/
theorem retention_no_shrink_cex :
    cexStoreC8.md.current_retention_days.getD retentionSentinel ≤ 365
    ∧ cexStoreC8.md.pending_retention_days = none
    ∧ cexStoreC8.raw = [⟨900000, "Wi-Fi", 100, 200⟩]
    ∧ (runMaintenance ⟨365, 1⟩ 1000000 cexStoreC8).raw = [] := by
  refine ⟨by decide, rfl, rfl, by decide⟩

/-- C8 (amended): when `keep_data_days ≥ current_retention_days`, the
retention phase deletes no row of any history table and leaves
`current_retention_days` unchanged; if a shrink was staged it removes
exactly the two staging keys, and otherwise it changes nothing at all
(row deletions during such a maintenance run come only from the
aggregation rollup). -/
theorem retention_no_shrink (s : Store) (keep now : Nat)
    (h : s.md.current_retention_days.getD retentionSentinel ≤ keep) :
    (runRetention keep now s).raw = s.raw
    ∧ (runRetention keep now s).minute = s.minute
    ∧ (runRetention keep now s).hour = s.hour
    ∧ (runRetention keep now s).md.current_retention_days
        = s.md.current_retention_days
    ∧ (∀ p schedT, s.md.pending_retention_days = some p →
        s.md.prune_scheduled_at = some schedT →
        (runRetention keep now s).md = { s.md with
          pending_retention_days := none, prune_scheduled_at := none })
    ∧ ((s.md.pending_retention_days = none ∨ s.md.prune_scheduled_at = none) →
        runRetention keep now s = s) := by
  unfold runRetention
  rw [if_pos h]
  rcases hpd : s.md.pending_retention_days with _ | p <;>
    rcases hsc : s.md.prune_scheduled_at with _ | t
  · refine ⟨rfl, rfl, rfl, rfl, ?_, ?_⟩
    · intro p T hp hT
      exact absurd hp (by simp)
    · intro _
      rfl
  · refine ⟨rfl, rfl, rfl, rfl, ?_, ?_⟩
    · intro p T hp hT
      exact absurd hp (by simp)
    · intro _
      rfl
  · refine ⟨rfl, rfl, rfl, rfl, ?_, ?_⟩
    · intro p2 T hp hT
      exact absurd hT (by simp)
    · intro _
      rfl
  · refine ⟨rfl, rfl, rfl, rfl, ?_, ?_⟩
    · intro p2 T hp hT
      rfl
    · intro hor
      rcases hor with h1 | h1 <;> exact absurd h1 (by simp)

/-- Store with a stale staged shrink and the configured retention back at
the current value. -/
def exStoreC8 : Store :=
  { raw := [⟨100, "Wi-Fi", 1, 2⟩], minute := [], hour := [],
    md := ⟨some 2, some 365, some 30, some 5000⟩ }

/-- C8 witness: with `keep_data_days = 365 ≥ 365` the retention phase
keeps every row, keeps the current retention, and cancels the stale
staged shrink by removing exactly the two staging keys. -/
theorem retention_no_shrink_witness :
    exStoreC8.md.current_retention_days.getD retentionSentinel ≤ 365
    ∧ (runRetention 365 9999 exStoreC8).raw = exStoreC8.raw
    ∧ (runRetention 365 9999 exStoreC8).md.current_retention_days
        = exStoreC8.md.current_retention_days
    ∧ (runRetention 365 9999 exStoreC8).md = { exStoreC8.md with
        pending_retention_days := none, prune_scheduled_at := none } := by
  have h := retention_no_shrink exStoreC8 365 9999 (by decide)
  exact ⟨by decide, h.1, h.2.2.2.1, h.2.2.2.2.1 30 5000 rfl rfl⟩

theorem runRetention_raw_subset (keep now : Nat) (t : Store) :
    ∀ x ∈ (runRetention keep now t).raw, x ∈ t.raw := by
  intro x hx
  unfold runRetention at hx
  dsimp only at hx
  by_cases hk : keep ≥ t.md.current_retention_days.getD retentionSentinel
  · rw [if_pos hk] at hx
    rcases hpd : t.md.pending_retention_days with _ | p <;>
      rcases hsc : t.md.prune_scheduled_at with _ | T <;>
      rw [hpd, hsc] at hx <;> exact hx
  · rw [if_neg hk] at hx
    rcases hpd : t.md.pending_retention_days with _ | p <;>
      rcases hsc : t.md.prune_scheduled_at with _ | T <;>
      rw [hpd, hsc] at hx
    · exact hx
    · exact hx
    · exact hx
    · dsimp only at hx
      by_cases hd : now ≥ T
      · rw [if_pos hd] at hx
        exact List.mem_of_mem_filter hx
      · rw [if_neg hd] at hx
        exact hx

theorem runRetention_minute_subset (keep now : Nat) (t : Store) :
    ∀ x ∈ (runRetention keep now t).minute, x ∈ t.minute := by
  intro x hx
  unfold runRetention at hx
  dsimp only at hx
  by_cases hk : keep ≥ t.md.current_retention_days.getD retentionSentinel
  · rw [if_pos hk] at hx
    rcases hpd : t.md.pending_retention_days with _ | p <;>
      rcases hsc : t.md.prune_scheduled_at with _ | T <;>
      rw [hpd, hsc] at hx <;> exact hx
  · rw [if_neg hk] at hx
    rcases hpd : t.md.pending_retention_days with _ | p <;>
      rcases hsc : t.md.prune_scheduled_at with _ | T <;>
      rw [hpd, hsc] at hx
    · exact hx
    · exact hx
    · exact hx
    · dsimp only at hx
      by_cases hd : now ≥ T
      · rw [if_pos hd] at hx
        exact List.mem_of_mem_filter hx
      · rw [if_neg hd] at hx
        exact hx

theorem aggregateRawToMinute_noop (now : Nat) (t : Store)
    (hr : ∀ r ∈ t.raw, rawQualifies now r = false) :
    aggregateRawToMinute now t = t := by
  unfold aggregateRawToMinute
  dsimp only
  have h1 : t.raw.filter (rawQualifies now) = [] := by
    rw [List.filter_eq_nil_iff]
    intro r hrr
    simp [hr r hrr]
  rw [h1]
  have hk : rawGroupKeys ([] : List RawRow) = [] := rfl
  rw [hk]
  simp only [List.map_nil, List.nil_append]
  have h2 : t.raw.filter (fun r => !rawQualifies now r) = t.raw := by
    rw [List.filter_eq_self]
    intro r hrr
    simp [hr r hrr]
  have h3 : t.minute.filter
      (fun m => !(([] : List (Nat × String)).contains m.key)) = t.minute := by
    rw [List.filter_eq_self]
    intro m _
    simp
  rw [h2, h3]

theorem runRetention_not_due_after (keep now : Nat) (t : Store) :
    ∀ p T, (runRetention keep now t).md.pending_retention_days = some p →
      (runRetention keep now t).md.prune_scheduled_at = some T →
      T ≤ now → False := by
  intro p T hp hT hdue
  unfold runRetention at hp hT
  dsimp only at hp hT
  by_cases hk : keep ≥ t.md.current_retention_days.getD retentionSentinel
  · rw [if_pos hk] at hp hT
    rcases hpd : t.md.pending_retention_days with _ | p0 <;>
      rcases hsc : t.md.prune_scheduled_at with _ | T0 <;>
      rw [hpd, hsc] at hp hT <;> dsimp only at hp hT
    · rw [hpd] at hp
      exact absurd hp (by simp)
    · rw [hpd] at hp
      exact absurd hp (by simp)
    · rw [hsc] at hT
      exact absurd hT (by simp)
    · exact absurd hp (by simp)
  · rw [if_neg hk] at hp hT
    have hg : 0 < gracePeriod := by norm_num [gracePeriod]
    rcases hpd : t.md.pending_retention_days with _ | p0 <;>
      rcases hsc : t.md.prune_scheduled_at with _ | T0 <;>
      rw [hpd, hsc] at hp hT <;> dsimp only at hp hT
    · injection hT with hT2
      omega
    · injection hT with hT2
      omega
    · injection hT with hT2
      omega
    · by_cases hd : now ≥ T0
      · rw [if_pos hd] at hp hT
        dsimp only at hp hT
        exact absurd hp (by simp)
      · rw [if_neg hd] at hp hT
        rw [hsc] at hT
        injection hT with hT2
        omega

theorem runRetention_tables_of_not_due (keep now : Nat) (u : Store)
    (h : ∀ p T, u.md.pending_retention_days = some p →
        u.md.prune_scheduled_at = some T → T ≤ now → False) :
    (runRetention keep now u).raw = u.raw
    ∧ (runRetention keep now u).minute = u.minute
    ∧ (runRetention keep now u).hour = u.hour := by
  unfold runRetention
  dsimp only
  by_cases hk : keep ≥ u.md.current_retention_days.getD retentionSentinel
  · rw [if_pos hk]
    rcases hpd : u.md.pending_retention_days with _ | p <;>
      rcases hsc : u.md.prune_scheduled_at with _ | T <;>
      exact ⟨rfl, rfl, rfl⟩
  · rw [if_neg hk]
    rcases hpd : u.md.pending_retention_days with _ | p <;>
      rcases hsc : u.md.prune_scheduled_at with _ | T
    · exact ⟨rfl, rfl, rfl⟩
    · exact ⟨rfl, rfl, rfl⟩
    · exact ⟨rfl, rfl, rfl⟩
    · have hnd : ¬now ≥ T := fun hle => h p T hpd hsc hle
      dsimp only
      rw [if_neg hnd]
      exact ⟨rfl, rfl, rfl⟩

theorem aggregateMinuteToHour_noop (now : Nat) (t : Store)
    (hm : ∀ m ∈ t.minute, minuteQualifies now m = false) :
    aggregateMinuteToHour now t = t := by
  unfold aggregateMinuteToHour
  dsimp only
  have h1 : t.minute.filter (minuteQualifies now) = [] := by
    rw [List.filter_eq_nil_iff]
    intro r hrr
    simp [hm r hrr]
  rw [h1]
  have hk : minuteGroupKeys ([] : List SumRow) = [] := rfl
  rw [hk]
  simp only [List.map_nil, List.nil_append]
  have h2 : t.minute.filter (fun r => !minuteQualifies now r) = t.minute := by
    rw [List.filter_eq_self]
    intro r hrr
    simp [hm r hrr]
  have h3 : t.hour.filter
      (fun h => !(([] : List (Nat × String)).contains h.key)) = t.hour := by
    rw [List.filter_eq_self]
    intro m _
    simp
  rw [h2, h3]

theorem runMaintenance_second_run_tables (cfg : Config) (now : Nat) (s : Store) :
    (runMaintenance cfg now (runMaintenance cfg now s)).raw
      = (runMaintenance cfg now s).raw
    ∧ (runMaintenance cfg now (runMaintenance cfg now s)).minute
      = (runMaintenance cfg now s).minute
    ∧ (runMaintenance cfg now (runMaintenance cfg now s)).hour
      = (runMaintenance cfg now s).hour := by
  have hr : ∀ r ∈ (runMaintenance cfg now s).raw, rawQualifies now r = false := by
    intro r hrr
    have h2 : r ∈ (runAggregation now s).raw :=
      runRetention_raw_subset cfg.keep_data_days now (runAggregation now s) r hrr
    have h3 : r ∈ s.raw.filter (fun x => !rawQualifies now x) := h2
    have h4 := (List.mem_filter.1 h3).2
    simpa using h4
  have hm : ∀ m ∈ (runMaintenance cfg now s).minute,
      minuteQualifies now m = false := by
    intro m hmm
    have h2 : m ∈ (runAggregation now s).minute :=
      runRetention_minute_subset cfg.keep_data_days now (runAggregation now s) m hmm
    have h3 : m ∈ (aggregateRawToMinute now s).minute.filter
        (fun x => !minuteQualifies now x) := h2
    have h4 := (List.mem_filter.1 h3).2
    simpa using h4
  have hagg : runAggregation now (runMaintenance cfg now s)
      = runMaintenance cfg now s := by
    unfold runAggregation
    rw [aggregateRawToMinute_noop now _ hr]
    exact aggregateMinuteToHour_noop now _ hm
  show (runRetention cfg.keep_data_days now
        (runAggregation now (runMaintenance cfg now s))).raw
      = (runMaintenance cfg now s).raw
    ∧ (runRetention cfg.keep_data_days now
        (runAggregation now (runMaintenance cfg now s))).minute
      = (runMaintenance cfg now s).minute
    ∧ (runRetention cfg.keep_data_days now
        (runAggregation now (runMaintenance cfg now s))).hour
      = (runMaintenance cfg now s).hour
  rw [hagg]
  exact runRetention_tables_of_not_due cfg.keep_data_days now
    (runMaintenance cfg now s)
    (runRetention_not_due_after cfg.keep_data_days now (runAggregation now s))

/-- Store with one minute row 92 days old while a 7-day prune is due at a
365-day current retention: the executing prune deletes a minute row that
is younger than the 30-day aggregation threshold. -/
def cexStoreC5 : Store :=
  { raw := [], minute := [⟨7948800, "Wi-Fi", 1, 1, 1, 1⟩], hour := [],
    md := ⟨some 2, some 365, some 7, some 8639999⟩ }

/-- C5 counterexample: a maintenance run at `now = 8640000` on a store
whose only minute row has `timestamp ≥ now - 30d` deletes that row anyway,
because a due prune with a 7-day pending retention removes everything
older than 7 days — so young rows are not always left unchanged by a
maintenance run. -/
theorem maintenance_age_thresholds_cex :
    minuteQualifies 8640000 ⟨7948800, "Wi-Fi", 1, 1, 1, 1⟩ = false
    ∧ cexStoreC5.minute = [⟨7948800, "Wi-Fi", 1, 1, 1, 1⟩]
    ∧ (runMaintenance ⟨7, 1⟩ 8640000 cexStoreC5).minute = [] := by
  refine ⟨by decide, rfl, by decide⟩

/-- C5 (amended): the aggregation phase touches only rows past its age
thresholds — after it, the raw table holds exactly the raw rows with
`timestamp ≥ now - 24h`, unchanged, and every minute row with
`timestamp ≥ now - 30d` whose bucket receives no rolled-up raw data is
still present (an executing prune may additionally delete rows past the
retention cutoff); and running maintenance a second time with the same
`config` and `now` and no new rows leaves every history table unchanged
(only retention metadata may move). -/
theorem maintenance_age_thresholds (cfg : Config) (now : Nat) (s : Store) :
    (runAggregation now s).raw = s.raw.filter (fun r => !rawQualifies now r)
    ∧ (∀ m ∈ s.minute, minuteQualifies now m = false →
        (rawGroupKeys (s.raw.filter (rawQualifies now))).contains m.key = false →
        m ∈ (runAggregation now s).minute)
    ∧ (runMaintenance cfg now (runMaintenance cfg now s)).raw
        = (runMaintenance cfg now s).raw
    ∧ (runMaintenance cfg now (runMaintenance cfg now s)).minute
        = (runMaintenance cfg now s).minute
    ∧ (runMaintenance cfg now (runMaintenance cfg now s)).hour
        = (runMaintenance cfg now s).hour := by
  refine ⟨rfl, ?_, runMaintenance_second_run_tables cfg now s⟩
  intro m hmem hyoung hkey
  show m ∈ (aggregateRawToMinute now s).minute.filter
    (fun x => !minuteQualifies now x)
  refine List.mem_filter.2 ⟨?_, by simp [hyoung]⟩
  show m ∈ _ ++ s.minute.filter
    (fun x => !(rawGroupKeys (s.raw.filter (rawQualifies now))).contains x.key)
  refine List.mem_append_right _ (List.mem_filter.2 ⟨hmem, ?_⟩)
  show (!(rawGroupKeys (s.raw.filter (rawQualifies now))).contains m.key) = true
  rw [hkey]
  rfl

/-- Store with one young raw row and one young minute row in distinct
buckets, plus a long retention. -/
def exStoreC5 : Store :=
  { raw := [⟨999999000, "Wi-Fi", 5, 6⟩],
    minute := [⟨999000000, "Wi-Fi", 1, 2, 1, 2⟩], hour := [],
    md := ⟨some 2, some 365, none, none⟩ }

/-- C5 witness: at `now = 10^9` the young raw row survives aggregation
untouched, the young minute row stays in the minute table, and a second
maintenance run with the same inputs changes no history table. -/
theorem maintenance_age_thresholds_witness :
    minuteQualifies 1000000000 ⟨999000000, "Wi-Fi", 1, 2, 1, 2⟩ = false
    ∧ (rawGroupKeys (exStoreC5.raw.filter (rawQualifies 1000000000))).contains
        (⟨999000000, "Wi-Fi", 1, 2, 1, 2⟩ : SumRow).key = false
    ∧ (runAggregation 1000000000 exStoreC5).raw
        = exStoreC5.raw.filter (fun r => !rawQualifies 1000000000 r)
    ∧ (⟨999000000, "Wi-Fi", 1, 2, 1, 2⟩ : SumRow)
        ∈ (runAggregation 1000000000 exStoreC5).minute
    ∧ (runMaintenance ⟨30, 1⟩ 1000000000 (runMaintenance ⟨30, 1⟩ 1000000000 exStoreC5)).minute
        = (runMaintenance ⟨30, 1⟩ 1000000000 exStoreC5).minute := by
  have h := maintenance_age_thresholds ⟨30, 1⟩ 1000000000 exStoreC5
  exact ⟨by decide, by decide, h.1,
    h.2.1 ⟨999000000, "Wi-Fi", 1, 2, 1, 2⟩ (by decide) (by decide) (by decide),
    h.2.2.2.1⟩

end NetSpeedTray
